import Mathlib

/-!
# serverstats/plugin_web.go

A shallow embedding of the chart cache front end (`HandleStatsCharts`,
`CacheGetCharts`, `cacheChartFetcher`) and of the ignore-channel
serialisation loop of `HandleSaveStatsSettings`, followed by theorems
about them.

Conventions of the embedding:

* a Go `string` is a list of characters (`GoString`);
* `int` and `int64` are mathematical integers; the 64-bit range is made
  explicit wherever the code does arithmetic or a conversion
  (`strconv.ParseInt`);
* a Go slice is a backing array together with a length, so that the
  difference between `len` and `cap` and between a nil and an empty slice
  is kept;
* a run-time panic is an `Except.error`;
* `WebStatsCache.Get` is a function from keys to `Option ChartResponse`
  (`none` is the nil interface value), and the key handed to it is part of
  the result of `CacheGetCharts`.
-/

namespace Serverstats

/-! ## Go values -/

/-- Go `string`, as the list of its characters. -/
abbrev GoString := List Char

/-- Run-time panics that the embedded code can raise. -/
inductive RuntimePanic where
  | sliceBoundsOutOfRange
deriving DecidableEq, Repr

deriving instance DecidableEq for Except

/-- Go slice: `arr` is the backing array seen from the first element of the
slice (its length is the capacity), `len` the length of the slice, and
`isNil` tells the nil slice from an allocated empty one. -/
structure Slice (α : Type) where
  isNil : Bool
  arr : List α
  len : Nat
deriving DecidableEq, Repr

namespace Slice

variable {α : Type}

/-- Capacity, `cap(s)`. -/
def cap (s : Slice α) : Nat := s.arr.length

/-- The elements of the slice, `s[0], ..., s[len(s)-1]`. -/
def toList (s : Slice α) : List α := s.arr.take s.len

/-- The slice `make([]T, 0)`: allocated, empty. -/
def make0 : Slice α := { isNil := false, arr := [], len := 0 }

/-- A slice made of the given elements, with no spare capacity. -/
def ofList (xs : List α) : Slice α := { isNil := false, arr := xs, len := xs.length }

/-- Well-formed slice values: the length is within the capacity and the nil
slice has neither elements nor capacity. -/
def WF (s : Slice α) : Prop :=
  s.len ≤ s.cap ∧ (s.isNil = true → s.arr = [] ∧ s.len = 0)

instance [DecidableEq α] (s : Slice α) : Decidable s.WF := by
  unfold WF; infer_instance

/-- The slice expression `s[:hi]`: panics unless `0 <= hi <= cap(s)`. -/
def sliceTo (s : Slice α) (hi : Int) : Except RuntimePanic (Slice α) :=
  if 0 ≤ hi ∧ hi ≤ (s.cap : Int) then
    .ok { s with len := hi.toNat }
  else
    .error .sliceBoundsOutOfRange

end Slice

/-- Pointer `*MemberChartDataPeriod`; the pointee is never read here. -/
abbrev MemberChartDataPeriodPtr := Nat

/-- Pointer `*MessageChartDataPeriod`; the pointee is never read here. -/
abbrev MessageChartDataPeriodPtr := Nat

/-- The struct `ChartResponse`. -/
structure ChartResponse where
  Days : Int
  MemberData : Slice MemberChartDataPeriodPtr
  MessageData : Slice MessageChartDataPeriodPtr
deriving DecidableEq, Repr

/-- A chart response is well formed when both of its slices are. -/
def ChartResponse.WF (r : ChartResponse) : Prop :=
  r.MemberData.WF ∧ r.MessageData.WF

instance (r : ChartResponse) : Decidable r.WF := by
  unfold ChartResponse.WF; infer_instance

/-! ## strconv -/

/-- The decimal digit character of `d` for `d < 10`. -/
def digitChar (d : Nat) : Char :=
  match d with
  | 0 => '0' | 1 => '1' | 2 => '2' | 3 => '3' | 4 => '4'
  | 5 => '5' | 6 => '6' | 7 => '7' | 8 => '8' | _ => '9'

/-- Decimal digits of `n`, least significant first; `fuel` bounds the number
of digits produced. -/
def digitsLE : Nat → Nat → List Nat
  | 0, _ => []
  | fuel + 1, n => if n < 10 then [n] else (n % 10) :: digitsLE fuel (n / 10)

/-- Decimal representation of a natural number. -/
def formatUint (n : Nat) : GoString :=
  ((digitsLE (n + 1) n).reverse).map digitChar

/-- Base-10 `strconv.FormatInt(i, 10)`. -/
def FormatInt (i : Int) : GoString :=
  if i < 0 then '-' :: formatUint i.natAbs else formatUint i.natAbs

/-- The error values of `strconv`: `ErrSyntax` and `ErrRange`. -/
inductive NumError where
  | ErrSyntax
  | ErrRange
deriving DecidableEq, Repr

/-- Largest `uint64`. -/
def maxUint64 : Nat := 2 ^ 64 - 1

/-- The loop of `strconv.ParseUint(s, 10, 64)` with the running value `n`.
Arithmetic is that of `uint64`: products and sums are reduced modulo
`2 ^ 64` and the overflow tests are those of the library. -/
def parseUintLoop : GoString → Nat → Nat × Option NumError
  | [], n => (n, none)
  | c :: cs, n =>
    if ¬ (48 ≤ c.toNat ∧ c.toNat ≤ 57) then
      (0, some .ErrSyntax)
    else
      let d := c.toNat - 48
      if n ≥ maxUint64 / 10 + 1 then
        -- n*base overflows
        (maxUint64, some .ErrRange)
      else
        let n10 := (n * 10) % 2 ^ 64
        let n1 := (n10 + d) % 2 ^ 64
        if n1 < n10 ∨ n1 > maxUint64 then
          -- n+d overflows
          (maxUint64, some .ErrRange)
        else
          parseUintLoop cs n1

/-- Base-10, 64-bit `strconv.ParseUint`: the value and the error. -/
def ParseUint (s : GoString) : Nat × Option NumError :=
  if s = [] then (0, some .ErrSyntax) else parseUintLoop s 0

/-- Conversion to `int64` by two's complement wrap-around. -/
def wrapInt64 (x : Int) : Int := (x + 2 ^ 63) % 2 ^ 64 - 2 ^ 63

/-- Base-10, 64-bit `strconv.ParseInt`: the value and the error. On a syntax
error the value is 0; on a range error it is the nearest `int64`. -/
def ParseInt (s : GoString) : Int × Option NumError :=
  match s with
  | [] => (0, some .ErrSyntax)
  | c :: rest =>
    -- Pick off leading sign.
    let neg := decide (c = '-')
    let s1 := if c = '+' ∨ c = '-' then rest else s
    -- Convert unsigned and check range.
    let (un, err) := ParseUint s1
    if err = some .ErrSyntax then
      (0, err)
    else
      let cutoff : Nat := 2 ^ 63
      if neg = false ∧ un ≥ cutoff then
        ((cutoff : Int) - 1, some .ErrRange)
      else if neg = true ∧ un > cutoff then
        (-(cutoff : Int), some .ErrRange)
      else
        let n := wrapInt64 un
        (if neg then wrapInt64 (-n) else n, none)

/-- The function `strconv.Atoi` on a platform whose `int` has 64 bits: the
result of `ParseInt(s, 10, 0)` (the library's fast path for short inputs
computes the same value and error). -/
def Atoi (s : GoString) : Int × Option NumError := ParseInt s

/-- The number that the decimal digits `cs` denote when read after the
running value `n` (used to state what `parseUintLoop` computes). -/
def decimalValue (cs : GoString) (n : Nat) : Nat :=
  cs.foldl (fun a c => a * 10 + (c.toNat - 48)) n

/-- The nearest `int64` to `i`. -/
def clampInt64 (i : Int) : Int :=
  if i < -(2 ^ 63) then -(2 ^ 63) else if i > 2 ^ 63 - 1 then 2 ^ 63 - 1 else i

/-- Whether `c` is one of the characters '0' to '9'. -/
def isDecimalDigit (c : Char) : Bool := decide (48 ≤ c.toNat ∧ c.toNat ≤ 57)

/-- The string `s` without its leading sign ('+' or '-'), if it has one. -/
def unsignedPart (s : GoString) : GoString :=
  match s with
  | [] => []
  | c :: rest => if c = '+' ∨ c = '-' then rest else c :: rest

/-- The digits of `s` that follow its optional sign, up to the first
character that is not a digit. -/
def leadingDigits (s : GoString) : GoString :=
  (unsignedPart s).takeWhile isDecimalDigit

/-- Whether `s` is a decimal integer: an optional sign followed by one or
more digits and nothing else. -/
def isDecimalInteger (s : GoString) : Bool :=
  decide (unsignedPart s ≠ []) && (unsignedPart s).all isDecimalDigit

/-- The integer that a decimal integer `s` denotes. -/
def decimalIntegerValue (s : GoString) : Int :=
  if s.head? = some '-' then -(decimalValue (unsignedPart s) 0 : Int)
  else (decimalValue (unsignedPart s) 0 : Int)

/-! ## strings -/

/-- The function `strings.Split(s, sep)` for a separator of one character:
the pieces of `s` between the occurrences of `sep`; the empty string gives
one empty piece. -/
def Split (s : GoString) (sep : Char) : List GoString :=
  match s with
  | [] => [[]]
  | c :: cs =>
    if c = sep then [] :: Split cs sep
    else
      match Split cs sep with
      | [] => [[c]]
      | p :: ps => (c :: p) :: ps

/-! ## The chart cache front end -/

/-- Lines 212-221 of `CacheGetCharts`: the pair `(actualDays, days)` after
the two adjustments. -/
def resolveDays (days : Int) : Int × Int :=
  let actualDays := if days < 7 then 7 else days
  -- default to full time stats
  if days ≠ 30 ∧ days ≠ 365 ∧ days > 7 then (-1, -1) else (actualDays, days)

/-- Line 223 of `CacheGetCharts`: the cache key for a guild and a bucket. -/
def chartsKey (guildID days : Int) : GoString :=
  "charts:".toList ++ FormatInt guildID ++ ":".toList ++ FormatInt days

/-- Lines 234-239 of `CacheGetCharts`: the local copy `cop` of the cached
response after the conditional truncation. -/
def slicedCopy (stats : ChartResponse) (actualDays days : Int) :
    Except RuntimePanic ChartResponse :=
  let cop := stats
  if actualDays ≠ days ∧ days ≠ -1 then do
    let memberData ← cop.MemberData.sliceTo actualDays
    let messageData ← cop.MessageData.sliceTo actualDays
    pure { cop with MemberData := memberData, MessageData := messageData, Days := actualDays }
  else
    pure cop

/-- What a call of `CacheGetCharts` does: the key it hands to
`WebStatsCache.Get` and what it returns (or the panic it raises). -/
structure ChartsCall where
  key : GoString
  ret : Except RuntimePanic ChartResponse

/-- The function `CacheGetCharts`. The argument `cacheGet` is
`WebStatsCache.Get`. The copy `cop` is computed (and may panic), and the
value returned on line 241 is the cached response itself. -/
def CacheGetCharts (cacheGet : GoString → Option ChartResponse) (guildID days : Int) :
    ChartsCall :=
  let (actualDays, days) := resolveDays days
  let key := chartsKey guildID days
  { key := key
    ret :=
      match cacheGet key with
      | none => .ok { Days := 0, MemberData := Slice.make0, MessageData := Slice.make0 }
      | some stats =>
        match slicedCopy stats actualDays days with
        | .error e => .error e
        | .ok _cop => .ok stats }

/-- Go `error` values, identified by their message. -/
abbrev GoError := GoString

/-- An aggregation retrieval (`RetrieveMemberChartStats`,
`RetrieveMessageChartData`): from a guild and a number of days to a series
or an error. -/
abbrev Retrieval (α : Type) := Int → Int → Except GoError (Slice α)

/-- Lines 245-252 of `cacheChartFetcher`: the key split on ':' and its second
and third parts parsed, errors of the two conversions ignored; `none` when
the key has fewer than three parts. -/
def parseChartsKey (key : GoString) : Option (Int × Int) :=
  let split := Split key ':'
  if split.length < 3 then
    none
  else
    let guildID := (ParseInt (split.getD 1 [])).1
    let days := (Atoi (split.getD 2 [])).1
    some (guildID, days)

/-- The function `cacheChartFetcher`; `none` is the nil interface value. -/
def cacheChartFetcher (RetrieveMemberChartStats : Retrieval MemberChartDataPeriodPtr)
    (RetrieveMessageChartData : Retrieval MessageChartDataPeriodPtr) (key : GoString) :
    Option ChartResponse :=
  match parseChartsKey key with
  | none => none
  | some (guildID, days) =>
    match RetrieveMemberChartStats guildID days with
    | .error _ => none
    | .ok memberData =>
      match RetrieveMessageChartData guildID days with
      | .error _ => none
      | .ok messageData =>
        some { Days := days, MemberData := memberData, MessageData := messageData }

/-- The part of the stats configuration that `HandleStatsCharts` reads. -/
structure ServerStatsConfig where
  Public : Bool
deriving DecidableEq, Repr

/-- The value of `r.URL.Query().Get("days")`: the first value of the
parameter, or the empty string when the parameter is absent. -/
def queryGetDays (daysParam : Option GoString) : GoString := daysParam.getD []

/-- Lines 199-205 of `HandleStatsCharts`: the day count handed to
`CacheGetCharts`. -/
def numDaysOfQuery (daysParam : Option GoString) : Int :=
  if queryGetDays daysParam ≠ [] then
    let numDays := (Atoi (queryGetDays daysParam)).1
    if numDays > 365 then 365 else numDays
  else
    7

/-- What a call of `HandleStatsCharts` does: the status written with
`w.WriteHeader` (if any), the keys handed to `WebStatsCache.Get`, and the
value returned (`none` is nil) or the panic raised. -/
structure ChartsReply where
  status : Option Nat
  cacheKeys : List GoString
  ret : Except RuntimePanic (Option ChartResponse)

/-- The function `HandleStatsCharts`. `getConfig` is the result of
`GetConfig` for the active guild, `guildID` the active guild's ID,
`daysParam` the `days` query parameter. -/
def HandleStatsCharts (getConfig : Except GoError ServerStatsConfig)
    (cacheGet : GoString → Option ChartResponse) (guildID : Int)
    (daysParam : Option GoString) (isPublicAccess : Bool) : ChartsReply :=
  match getConfig with
  | .error _ => { status := some 500, cacheKeys := [], ret := .ok none }
  | .ok conf =>
    if !conf.Public && isPublicAccess then
      { status := none, cacheKeys := [], ret := .ok none }
    else
      let numDays := numDaysOfQuery daysParam
      let stats := CacheGetCharts cacheGet guildID numDays
      { status := none, cacheKeys := [stats.key], ret := stats.ret.map some }

/-! ## Saving the settings -/

/-- The part of a guild channel that `HandleSaveStatsSettings` reads. -/
structure ChannelState where
  ID : Int
deriving DecidableEq, Repr

/-- The loop on lines 91-118 of `HandleSaveStatsSettings`, from index `i`
on, with the current values of `stringedChannels` and `alreadyAdded`. -/
def ignoreChannelsLoop (channels : List ChannelState) :
    Nat → List Int → GoString → List Int → GoString
  | _, [], stringedChannels, _ => stringedChannels
  | i, v :: rest, stringedChannels, alreadyAdded =>
    -- only add each once
    if alreadyAdded.any (fun ad => ad == v) then
      ignoreChannelsLoop channels (i + 1) rest stringedChannels alreadyAdded
    else
      -- make sure the channel exists
      let channelExists := channels.any (fun ec => ec.ID == v)
      if !channelExists then
        ignoreChannelsLoop channels (i + 1) rest stringedChannels alreadyAdded
      else
        let stringedChannels := if i ≠ 0 then stringedChannels ++ ",".toList else stringedChannels
        ignoreChannelsLoop channels (i + 1) rest (stringedChannels ++ FormatInt v)
          (alreadyAdded ++ [v])

/-- The struct `FormData`. -/
structure FormData where
  Public : Bool
  IgnoreChannels : List Int
deriving DecidableEq, Repr

/-- The part of the active guild that `HandleSaveStatsSettings` reads. -/
structure GuildState where
  ID : Int
  Channels : List ChannelState
deriving DecidableEq, Repr

/-- The columns of `models.ServerStatsConfig` that `HandleSaveStatsSettings`
fills from the form (`CreatedAt` is the current time and is left out). -/
structure models.ServerStatsConfig where
  GuildID : Int
  Public : Bool
  IgnoreChannels : GoString
deriving DecidableEq, Repr

/-- The function `HandleSaveStatsSettings`, up to the model it upserts
(lines 84-125). -/
def HandleSaveStatsSettings (ag : GuildState) (formData : FormData) :
    models.ServerStatsConfig :=
  let stringedChannels := ignoreChannelsLoop ag.Channels 0 formData.IgnoreChannels [] []
  { GuildID := ag.ID
    Public := formData.Public
    IgnoreChannels := stringedChannels }

/-! ## Sample cache contents -/

/-- A cached response for bucket 3 whose two series hold eight entries. -/
def cachedEight : ChartResponse :=
  { Days := 3
    MemberData := Slice.ofList [101, 102, 103, 104, 105, 106, 107, 108]
    MessageData := Slice.ofList [201, 202, 203, 204, 205, 206, 207, 208] }

/-- A cached response for bucket 3 whose two series hold three entries, as
a fetch of three days of data leaves it. -/
def cachedThree : ChartResponse :=
  { Days := 3
    MemberData := Slice.ofList [101, 102, 103]
    MessageData := Slice.ofList [201, 202, 203] }

/-- A cache that holds `entry` under `key` and nothing else. -/
def cacheWith (key : GoString) (entry : ChartResponse) : GoString → Option ChartResponse :=
  fun k => if k = key then some entry else none

/-! ## Facts about strconv and strings -/

theorem digitChar_toNat (d : Nat) (h : d < 10) : (digitChar d).toNat = 48 + d := by
  interval_cases d <;> rfl

theorem decimalValue_nil (n : Nat) : decimalValue [] n = n := rfl

theorem decimalValue_cons (c : Char) (cs : GoString) (n : Nat) :
    decimalValue (c :: cs) n = decimalValue cs (n * 10 + (c.toNat - 48)) := rfl

theorem decimalValue_append (xs ys : GoString) (n : Nat) :
    decimalValue (xs ++ ys) n = decimalValue ys (decimalValue xs n) := by
  simp [decimalValue, List.foldl_append]

theorem le_decimalValue (cs : GoString) (n : Nat) : n ≤ decimalValue cs n := by
  induction cs generalizing n with
  | nil => exact Nat.le_refl n
  | cons c cs ih =>
    rw [decimalValue_cons]
    have := ih (n * 10 + (c.toNat - 48))
    omega

theorem parseUintLoop_digits (cs : GoString) (n : Nat)
    (hd : ∀ c ∈ cs, 48 ≤ c.toNat ∧ c.toNat ≤ 57) (hn : n < 2 ^ 64) :
    parseUintLoop cs n =
      if decimalValue cs n < 2 ^ 64 then (decimalValue cs n, none)
      else (maxUint64, some .ErrRange) := by
  induction cs generalizing n with
  | nil => rw [parseUintLoop, decimalValue_nil, if_pos hn]
  | cons c cs ih =>
    have hc := hd c (List.mem_cons_self c cs)
    have hcs : ∀ c' ∈ cs, 48 ≤ c'.toNat ∧ c'.toNat ≤ 57 :=
      fun c' h' => hd c' (List.mem_cons_of_mem c h')
    have hge := le_decimalValue cs (n * 10 + (c.toNat - 48))
    rw [decimalValue_cons]
    unfold parseUintLoop
    simp only [hc, and_self, not_true_eq_false, if_false]
    by_cases hcut : n ≥ maxUint64 / 10 + 1
    · rw [if_pos hcut]
      have : ¬ decimalValue cs (n * 10 + (c.toNat - 48)) < 2 ^ 64 := by
        simp only [maxUint64] at hcut
        omega
      rw [if_neg this]
    · rw [if_neg hcut]
      simp only [maxUint64] at hcut
      have h10 : n * 10 % 2 ^ 64 = n * 10 := Nat.mod_eq_of_lt (by omega)
      simp only [h10]
      by_cases hov : n * 10 + (c.toNat - 48) < 2 ^ 64
      · have h1 : (n * 10 + (c.toNat - 48)) % 2 ^ 64 = n * 10 + (c.toNat - 48) :=
          Nat.mod_eq_of_lt hov
        simp only [h1]
        have hno : ¬ (n * 10 + (c.toNat - 48) < n * 10 ∨ n * 10 + (c.toNat - 48) > maxUint64) := by
          simp only [maxUint64]
          omega
        rw [if_neg hno]
        exact ih _ hcs hov
      · have hyes : (n * 10 + (c.toNat - 48)) % 2 ^ 64 < n * 10 ∨
            (n * 10 + (c.toNat - 48)) % 2 ^ 64 > maxUint64 := by
          left
          omega
        rw [if_pos hyes]
        have : ¬ decimalValue cs (n * 10 + (c.toNat - 48)) < 2 ^ 64 := by omega
        rw [if_neg this]

theorem digitsLE_lt (fuel n d : Nat) (h : d ∈ digitsLE fuel n) : d < 10 := by
  induction fuel generalizing n with
  | zero => simp [digitsLE] at h
  | succ f ih =>
    unfold digitsLE at h
    split at h
    · simp only [List.mem_singleton] at h
      omega
    · rcases List.mem_cons.mp h with h | h
      · omega
      · exact ih _ h

theorem digitsLE_ne_nil (fuel n : Nat) : digitsLE (fuel + 1) n ≠ [] := by
  unfold digitsLE
  split <;> simp

theorem decimalValue_digitsLE (fuel n : Nat) (h : n < fuel) :
    decimalValue (((digitsLE fuel n).reverse).map digitChar) 0 = n := by
  induction fuel generalizing n with
  | zero => omega
  | succ f ih =>
    unfold digitsLE
    split
    · rename_i hlt
      simp [decimalValue, digitChar_toNat n hlt]
    · rename_i hge
      have hdiv : n / 10 < f := by omega
      simp only [List.reverse_cons, List.map_append, List.map_cons, List.map_nil,
        decimalValue_append, ih _ hdiv, decimalValue_cons, decimalValue_nil,
        digitChar_toNat (n % 10) (Nat.mod_lt n (by decide))]
      omega

theorem formatUint_digits (n : Nat) : ∀ c ∈ formatUint n, 48 ≤ c.toNat ∧ c.toNat ≤ 57 := by
  intro c hc
  simp only [formatUint, List.mem_map, List.mem_reverse] at hc
  obtain ⟨d, hd, rfl⟩ := hc
  have := digitsLE_lt _ _ _ hd
  rw [digitChar_toNat d this]
  omega

theorem formatUint_ne_nil (n : Nat) : formatUint n ≠ [] := by
  simp only [formatUint, ne_eq, List.map_eq_nil_iff, List.reverse_eq_nil_iff]
  exact digitsLE_ne_nil n n

theorem decimalValue_formatUint (n : Nat) : decimalValue (formatUint n) 0 = n :=
  decimalValue_digitsLE (n + 1) n (Nat.lt_succ_self n)

theorem ParseUint_formatUint (n : Nat) :
    ParseUint (formatUint n) =
      if n < 2 ^ 64 then (n, none) else (maxUint64, some .ErrRange) := by
  unfold ParseUint
  rw [if_neg (formatUint_ne_nil n),
    parseUintLoop_digits _ 0 (formatUint_digits n) (by decide), decimalValue_formatUint]

theorem ParseInt_unsigned (s : GoString) (hne : s ≠ [])
    (hd : ∀ c ∈ s, 48 ≤ c.toNat ∧ c.toNat ≤ 57) :
    ParseInt s =
      if (2 : Nat) ^ 63 ≤ (ParseUint s).1 then ((2 : Int) ^ 63 - 1, some .ErrRange)
      else (wrapInt64 (ParseUint s).1, none) := by
  cases s with
  | nil => exact absurd rfl hne
  | cons c rest =>
    have hc := hd c (List.mem_cons_self c rest)
    have hplus : c ≠ '+' := by
      intro h
      rw [h] at hc
      exact absurd hc (by decide)
    have hminus : c ≠ '-' := by
      intro h
      rw [h] at hc
      exact absurd hc (by decide)
    have hsyn : (ParseUint (c :: rest)).2 ≠ some .ErrSyntax := by
      unfold ParseUint
      rw [if_neg (List.cons_ne_nil c rest), parseUintLoop_digits _ 0 hd (by decide)]
      split <;> simp
    unfold ParseInt
    simp only [hplus, hminus, or_self, if_false, decide_False, hsyn, Bool.false_eq_true,
      false_and, true_and, ge_iff_le]
    split <;> simp_all

theorem ParseInt_negative (s : GoString) (hne : s ≠ [])
    (hd : ∀ c ∈ s, 48 ≤ c.toNat ∧ c.toNat ≤ 57) :
    ParseInt ('-' :: s) =
      if (ParseUint s).1 > (2 : Nat) ^ 63 then (-((2 : Nat) ^ 63 : Int), some .ErrRange)
      else (wrapInt64 (-(wrapInt64 (ParseUint s).1)), none) := by
  have hsyn : (ParseUint s).2 ≠ some .ErrSyntax := by
    unfold ParseUint
    rw [if_neg hne, parseUintLoop_digits _ 0 hd (by decide)]
    split <;> simp
  unfold ParseInt
  simp only [or_true, if_true, decide_True, hsyn, if_false, reduceCtorEq, false_and, true_and]
  split <;> simp_all

theorem ParseInt_FormatInt (i : Int) : (ParseInt (FormatInt i)).1 = clampInt64 i := by
  unfold FormatInt clampInt64
  by_cases hneg : i < 0
  · rw [if_pos hneg, ParseInt_negative _ (formatUint_ne_nil _) (formatUint_digits _),
      ParseUint_formatUint]
    by_cases hbig : i.natAbs < 2 ^ 64
    · rw [if_pos hbig]
      by_cases hcut : i.natAbs > 2 ^ 63
      · rw [if_pos hcut]
        have : i < -(2 ^ 63) := by omega
        rw [if_pos this]
        norm_num
      · rw [if_neg hcut]
        have : ¬ i < -(2 ^ 63) := by omega
        have h2 : ¬ i > 2 ^ 63 - 1 := by omega
        rw [if_neg this, if_neg h2]
        simp only [wrapInt64]
        omega
    · rw [if_neg hbig]
      have hcut : maxUint64 > 2 ^ 63 := by decide
      have : i < -(2 ^ 63) := by omega
      rw [if_pos hcut, if_pos this]
      norm_num
  · rw [if_neg hneg, ParseInt_unsigned _ (formatUint_ne_nil _) (formatUint_digits _),
      ParseUint_formatUint]
    have hlow : ¬ i < -(2 ^ 63) := by omega
    rw [if_neg hlow]
    by_cases hbig : i.natAbs < 2 ^ 64
    · rw [if_pos hbig]
      by_cases hcut : 2 ^ 63 ≤ i.natAbs
      · rw [if_pos hcut]
        have : i > 2 ^ 63 - 1 := by omega
        rw [if_pos this]
      · rw [if_neg hcut]
        have : ¬ i > 2 ^ 63 - 1 := by omega
        rw [if_neg this]
        simp only [wrapInt64]
        omega
    · rw [if_neg hbig]
      have hcut : 2 ^ 63 ≤ maxUint64 := by decide
      have : i > 2 ^ 63 - 1 := by omega
      rw [if_pos hcut, if_pos this]

theorem Split_of_not_mem (s : GoString) (sep : Char) (h : sep ∉ s) : Split s sep = [s] := by
  induction s with
  | nil => rfl
  | cons c cs ih =>
    have hc : c ≠ sep := fun e => h (e ▸ List.mem_cons_self c cs)
    have hcs : sep ∉ cs := fun m => h (List.mem_cons_of_mem c m)
    unfold Split
    rw [if_neg hc, ih hcs]

theorem Split_append_sep (a rest : GoString) (sep : Char) (h : sep ∉ a) :
    Split (a ++ sep :: rest) sep = a :: Split rest sep := by
  induction a with
  | nil =>
    show Split (sep :: rest) sep = [] :: Split rest sep
    rw [Split, if_pos rfl]
  | cons c cs ih =>
    have hc : c ≠ sep := fun e => h (e ▸ List.mem_cons_self c cs)
    have hcs : sep ∉ cs := fun m => h (List.mem_cons_of_mem c m)
    show Split (c :: (cs ++ sep :: rest)) sep = (c :: cs) :: Split rest sep
    rw [Split, if_neg hc, ih hcs]

theorem FormatInt_no_colon (i : Int) : ':' ∉ FormatInt i := by
  have hu : ∀ n, ':' ∉ formatUint n := by
    intro n hmem
    have := formatUint_digits n ':' hmem
    exact absurd this (by decide)
  unfold FormatInt
  split
  · intro hmem
    rcases List.mem_cons.mp hmem with h | h
    · exact absurd h (by decide)
    · exact hu _ h
  · exact hu _

theorem Split_chartsKey (guildID days : Int) :
    Split (chartsKey guildID days) ':' = ["charts".toList, FormatInt guildID, FormatInt days] := by
  have hshape : chartsKey guildID days =
      "charts".toList ++ ':' :: (FormatInt guildID ++ ':' :: FormatInt days) := by
    simp [chartsKey]
  rw [hshape, Split_append_sep _ _ _ (by decide),
    Split_append_sep _ _ _ (FormatInt_no_colon guildID),
    Split_of_not_mem _ _ (FormatInt_no_colon days)]

theorem parseChartsKey_chartsKey (guildID days : Int) :
    parseChartsKey (chartsKey guildID days) = some (clampInt64 guildID, clampInt64 days) := by
  simp [parseChartsKey, Split_chartsKey, Atoi, ParseInt_FormatInt]

theorem clampInt64_of_range (i : Int) (hlo : -(2 ^ 63) ≤ i) (hhi : i < 2 ^ 63) :
    clampInt64 i = i := by
  unfold clampInt64
  rw [if_neg (by omega), if_neg (by omega)]

theorem resolveDays_snd_range (days : Int) (hlo : -(2 ^ 63) ≤ days) (hhi : days < 2 ^ 63) :
    -(2 ^ 63) ≤ (resolveDays days).2 ∧ (resolveDays days).2 < 2 ^ 63 := by
  by_cases hall : days ≠ 30 ∧ days ≠ 365 ∧ days > 7
  · have : resolveDays days = (-1, -1) := by
      unfold resolveDays
      rw [if_pos hall]
    rw [this]
    constructor <;> norm_num
  · have : (resolveDays days).2 = days := by
      unfold resolveDays
      rw [if_neg hall]
    rw [this]
    exact ⟨hlo, hhi⟩

theorem parseUintLoop_leading (body : GoString) (n : Nat) (hn : n < 2 ^ 64) :
    parseUintLoop body n =
      if decimalValue (body.takeWhile isDecimalDigit) n < 2 ^ 64 then
        (if body.all isDecimalDigit = true then (decimalValue body n, none)
         else (0, some .ErrSyntax))
      else (maxUint64, some .ErrRange) := by
  induction body generalizing n with
  | nil =>
    simp only [List.takeWhile_nil, List.all_nil, if_true]
    rw [parseUintLoop, decimalValue_nil, if_pos hn]
  | cons c cs ih =>
    by_cases hc : 48 ≤ c.toNat ∧ c.toNat ≤ 57
    · have hdig : isDecimalDigit c = true := by simp only [isDecimalDigit, hc, and_self, decide_True]
      have htw : (c :: cs).takeWhile isDecimalDigit = c :: cs.takeWhile isDecimalDigit := by
        rw [List.takeWhile_cons, hdig]
        rfl
      have hall : (c :: cs).all isDecimalDigit = cs.all isDecimalDigit := by
        rw [List.all_cons, hdig, Bool.true_and]
      have hge := le_decimalValue (cs.takeWhile isDecimalDigit) (n * 10 + (c.toNat - 48))
      rw [htw, hall, decimalValue_cons, decimalValue_cons]
      unfold parseUintLoop
      simp only [hc, and_self, not_true_eq_false, if_false]
      by_cases hcut : n ≥ maxUint64 / 10 + 1
      · rw [if_pos hcut]
        have : ¬ decimalValue (cs.takeWhile isDecimalDigit) (n * 10 + (c.toNat - 48)) < 2 ^ 64 := by
          simp only [maxUint64] at hcut
          omega
        rw [if_neg this]
      · rw [if_neg hcut]
        simp only [maxUint64] at hcut
        have h10 : n * 10 % 2 ^ 64 = n * 10 := Nat.mod_eq_of_lt (by omega)
        simp only [h10]
        by_cases hov : n * 10 + (c.toNat - 48) < 2 ^ 64
        · have h1 : (n * 10 + (c.toNat - 48)) % 2 ^ 64 = n * 10 + (c.toNat - 48) :=
            Nat.mod_eq_of_lt hov
          simp only [h1]
          have hno : ¬ (n * 10 + (c.toNat - 48) < n * 10 ∨
              n * 10 + (c.toNat - 48) > maxUint64) := by
            simp only [maxUint64]
            omega
          rw [if_neg hno]
          exact ih _ hov
        · have hyes : (n * 10 + (c.toNat - 48)) % 2 ^ 64 < n * 10 ∨
              (n * 10 + (c.toNat - 48)) % 2 ^ 64 > maxUint64 := by
            left
            omega
          rw [if_pos hyes]
          have : ¬ decimalValue (cs.takeWhile isDecimalDigit) (n * 10 + (c.toNat - 48)) < 2 ^ 64 := by
            omega
          rw [if_neg this]
    · have hdig : isDecimalDigit c = false := by simp only [isDecimalDigit, hc, decide_False]
      have htw : (c :: cs).takeWhile isDecimalDigit = [] := by
        rw [List.takeWhile_cons, hdig]
        rfl
      have hall : (c :: cs).all isDecimalDigit = false := by
        rw [List.all_cons, hdig, Bool.false_and]
      rw [htw, hall, decimalValue_nil, if_pos hn]
      unfold parseUintLoop
      simp only [hc, not_false_eq_true, if_true, Bool.false_eq_true, if_false]

theorem takeWhile_of_all (body : GoString) (h : body.all isDecimalDigit = true) :
    body.takeWhile isDecimalDigit = body := by
  induction body with
  | nil => rfl
  | cons c cs ih =>
    rw [List.all_cons, Bool.and_eq_true] at h
    rw [List.takeWhile_cons, h.1]
    simp only [ih h.2, if_true]

theorem ParseUint_leading (body : GoString) :
    ParseUint body =
      if decimalValue (body.takeWhile isDecimalDigit) 0 < 2 ^ 64 then
        (if body ≠ [] ∧ body.all isDecimalDigit = true then (decimalValue body 0, none)
         else (0, some .ErrSyntax))
      else (maxUint64, some .ErrRange) := by
  unfold ParseUint
  by_cases hb : body = []
  · subst hb
    simp [decimalValue_nil]
  · rw [if_neg hb, parseUintLoop_leading body 0 (by decide)]
    simp only [ne_eq, hb, not_false_eq_true, true_and]

theorem ParseInt_value (s : GoString) (hs : s ≠ []) :
    (ParseInt s).1 =
      if decimalValue (leadingDigits s) 0 < 2 ^ 64 then
        (if isDecimalInteger s = true then clampInt64 (decimalIntegerValue s) else 0)
      else (if s.head? = some '-' then -(2 ^ 63) else 2 ^ 63 - 1) := by
  cases s with
  | nil => exact absurd rfl hs
  | cons c rest =>
    have hbody : unsignedPart (c :: rest) = if c = '+' ∨ c = '-' then rest else c :: rest := rfl
    simp only [ParseInt, leadingDigits, isDecimalInteger, decimalIntegerValue, hbody,
      List.head?_cons, Option.some.injEq]
    generalize (if c = '+' ∨ c = '-' then rest else c :: rest) = body
    rw [ParseUint_leading body]
    by_cases hlead : decimalValue (body.takeWhile isDecimalDigit) 0 < 2 ^ 64
    · simp only [hlead, if_true]
      by_cases hint : body ≠ [] ∧ body.all isDecimalDigit = true
      · have hval : decimalValue body 0 < 2 ^ 64 := by
          rw [takeWhile_of_all body hint.2] at hlead
          exact hlead
        simp only [hint, ne_eq, not_false_eq_true, and_self, if_true, decide_True, Bool.and_self,
          reduceCtorEq, if_false, Bool.true_and]
        unfold clampInt64 wrapInt64
        by_cases hneg : c = '-'
        · simp only [hneg, decide_True, Bool.true_eq_false, false_and, if_false, true_and, if_true]
          split_ifs <;> omega
        · simp only [hneg, decide_False, true_and, Bool.false_eq_true, false_and, if_false]
          split_ifs <;> omega
      · have hdec : (decide (body ≠ []) && body.all isDecimalDigit) = false := by
          by_cases hb : body = []
          · simp [hb]
          · have : ¬ body.all isDecimalDigit = true := fun h => hint ⟨hb, h⟩
            simp [hb, this]
        simp only [hint, if_false, if_true, hdec, Bool.false_eq_true]
    · simp only [hlead, if_false, reduceCtorEq]
      have hmax : maxUint64 = 2 ^ 64 - 1 := rfl
      by_cases hneg : c = '-'
      · simp only [hneg, decide_True, Bool.true_eq_false, false_and, if_false, true_and, if_true,
          hmax]
        norm_num
        rw [if_neg (by decide)]
      · simp only [hneg, decide_False, true_and, Bool.false_eq_true, false_and, if_false, hmax]
        norm_num
        rw [if_neg (by decide)]

theorem isDecimalInteger_ne_nil (s : GoString) (h : isDecimalInteger s = true) : s ≠ [] := by
  intro hs
  subst hs
  simp [isDecimalInteger, unsignedPart] at h

theorem unsignedPart_FormatInt (n : Int) : unsignedPart (FormatInt n) = formatUint n.natAbs := by
  unfold FormatInt
  split
  · simp [unsignedPart]
  · cases hf : formatUint n.natAbs with
    | nil => exact absurd hf (formatUint_ne_nil _)
    | cons c rest =>
      have hc := formatUint_digits n.natAbs c (hf ▸ List.mem_cons_self c rest)
      have hplus : c ≠ '+' := by
        intro h
        rw [h] at hc
        exact absurd hc (by decide)
      have hminus : c ≠ '-' := by
        intro h
        rw [h] at hc
        exact absurd hc (by decide)
      simp [unsignedPart, hplus, hminus]

theorem head_FormatInt (n : Int) : (FormatInt n).head? = some '-' ↔ n < 0 := by
  unfold FormatInt
  split
  · rename_i h
    simp [h]
  · rename_i h
    cases hf : formatUint n.natAbs with
    | nil => exact absurd hf (formatUint_ne_nil _)
    | cons c rest =>
      have hc := formatUint_digits n.natAbs c (hf ▸ List.mem_cons_self c rest)
      have hminus : c ≠ '-' := by
        intro h'
        rw [h'] at hc
        exact absurd hc (by decide)
      simp [hminus, h]

theorem FormatInt_decimalInteger (n : Int) :
    isDecimalInteger (FormatInt n) = true ∧ decimalIntegerValue (FormatInt n) = n := by
  constructor
  · unfold isDecimalInteger
    rw [unsignedPart_FormatInt]
    have hne := formatUint_ne_nil n.natAbs
    have hall : (formatUint n.natAbs).all isDecimalDigit = true := by
      rw [List.all_eq_true]
      intro c hc
      have := formatUint_digits n.natAbs c hc
      simp only [isDecimalDigit, this, and_self, decide_True]
    simp [hne, hall]
  · unfold decimalIntegerValue
    rw [unsignedPart_FormatInt, decimalValue_formatUint]
    by_cases h : n < 0
    · rw [if_pos ((head_FormatInt n).mpr h)]
      omega
    · rw [if_neg (fun hh => h ((head_FormatInt n).mp hh))]
      omega

theorem numDaysOfQuery_some (s : GoString) (hs : s ≠ []) :
    numDaysOfQuery (some s) = if (ParseInt s).1 > 365 then 365 else (ParseInt s).1 := by
  unfold numDaysOfQuery
  have hq : queryGetDays (some s) = s := rfl
  rw [hq, if_pos hs]
  rfl

theorem numDaysOfQuery_decimalInteger (s : GoString) (h : isDecimalInteger s = true) :
    numDaysOfQuery (some s) =
      if decimalIntegerValue s > 365 then 365
      else if decimalIntegerValue s < -(2 ^ 63) then -(2 ^ 63)
      else decimalIntegerValue s := by
  have hs := isDecimalInteger_ne_nil s h
  rw [numDaysOfQuery_some s hs, ParseInt_value s hs]
  have hall : (unsignedPart s).all isDecimalDigit = true := by
    simp only [isDecimalInteger, Bool.and_eq_true] at h
    exact h.2
  have hlead : leadingDigits s = unsignedPart s := takeWhile_of_all _ hall
  rw [hlead, h]
  simp only [if_true]
  unfold decimalIntegerValue clampInt64
  by_cases hneg : s.head? = some '-'
  · simp only [hneg, if_true]
    split_ifs <;> omega
  · simp only [hneg, if_false]
    split_ifs <;> omega

theorem numDaysOfQuery_not_integer (s : GoString) (hs : s ≠ [])
    (h : isDecimalInteger s = false) :
    numDaysOfQuery (some s) =
      if decimalValue (leadingDigits s) 0 < 2 ^ 64 then 0
      else if s.head? = some '-' then -(2 ^ 63)
      else 365 := by
  rw [numDaysOfQuery_some s hs, ParseInt_value s hs, h]
  simp only [Bool.false_eq_true, if_false]
  split_ifs <;> omega

/-! ## Bucket resolution -/

/-- C2: for every requested day count `d` with `1 ≤ d < 7`, the display
length is 7, the bucket kept for the key is `d` itself, and the key that
`CacheGetCharts` hands to the cache is `"charts:" + guildID + ":" + d`. -/
theorem small_request_keeps_bucket (cacheGet : GoString → Option ChartResponse)
    (guildID d : Int) (h1 : 1 ≤ d) (h7 : d < 7) :
    resolveDays d = (7, d) ∧
    (CacheGetCharts cacheGet guildID d).key =
      "charts:".toList ++ FormatInt guildID ++ ":".toList ++ FormatInt d := by
  have hres : resolveDays d = (7, d) := by
    unfold resolveDays
    have hgt : ¬ (d ≠ 30 ∧ d ≠ 365 ∧ d > 7) := by omega
    simp only [hgt, h7, if_true, if_false]
  refine ⟨hres, ?_⟩
  simp only [CacheGetCharts, hres, chartsKey]

theorem small_request_keeps_bucket_witness :
    resolveDays 3 = (7, 3) ∧
    (CacheGetCharts (fun _ => none) 42 3).key =
      "charts:".toList ++ FormatInt 42 ++ ":".toList ++ FormatInt 3 :=
  small_request_keeps_bucket (fun _ => none) 42 3 (by decide) (by decide)

/-- C3: for every requested day count `d` in `[7, 365]`: when `d` is 7, 30
or 365 the display length and the bucket of the key are both `d`; for every
other value both are -1 (the ALL bucket). In each case the key handed to the
cache carries that bucket. -/
theorem large_request_bucket (cacheGet : GoString → Option ChartResponse)
    (guildID d : Int) (h7 : 7 ≤ d) (h365 : d ≤ 365) :
    resolveDays d = (if d = 7 ∨ d = 30 ∨ d = 365 then (d, d) else (-1, -1)) ∧
    (CacheGetCharts cacheGet guildID d).key =
      chartsKey guildID (if d = 7 ∨ d = 30 ∨ d = 365 then d else -1) := by
  by_cases hd : d = 7 ∨ d = 30 ∨ d = 365
  · have hres : resolveDays d = (d, d) := by
      unfold resolveDays
      have hgt : ¬ (d ≠ 30 ∧ d ≠ 365 ∧ d > 7) := by omega
      have hlt : ¬ (d < 7) := by omega
      simp only [hgt, hlt, if_false]
    rw [if_pos hd, if_pos hd]
    exact ⟨hres, by simp only [CacheGetCharts, hres]⟩
  · have hres : resolveDays d = (-1, -1) := by
      unfold resolveDays
      have hgt : d ≠ 30 ∧ d ≠ 365 ∧ d > 7 := by omega
      rw [if_pos hgt]
    rw [if_neg hd, if_neg hd]
    exact ⟨hres, by simp only [CacheGetCharts, hres]⟩

theorem large_request_bucket_witness :
    (resolveDays 30 = (30, 30) ∧
      (CacheGetCharts (fun _ => none) 42 30).key = chartsKey 42 30) ∧
    (resolveDays 100 = (-1, -1) ∧
      (CacheGetCharts (fun _ => none) 42 100).key = chartsKey 42 (-1)) :=
  ⟨large_request_bucket (fun _ => none) 42 30 (by decide) (by decide),
   large_request_bucket (fun _ => none) 42 100 (by decide) (by decide)⟩

/-! ## Absent cache entries -/

/-- C7: for every guild and every requested day count, when the cache
lookup for the key derived by `CacheGetCharts` yields nil, the call does not
panic and returns a response with `Days = 0` whose two series are allocated
(non-nil) and have length 0. -/
theorem absent_gives_empty_response (cacheGet : GoString → Option ChartResponse)
    (guildID days : Int)
    (habsent : cacheGet (CacheGetCharts cacheGet guildID days).key = none) :
    ∃ r, (CacheGetCharts cacheGet guildID days).ret = .ok r ∧
      r.Days = 0 ∧
      r.MemberData.isNil = false ∧ r.MemberData.len = 0 ∧ r.MemberData.toList = [] ∧
      r.MessageData.isNil = false ∧ r.MessageData.len = 0 ∧ r.MessageData.toList = [] ∧
      r.WF := by
  refine ⟨{ Days := 0, MemberData := Slice.make0, MessageData := Slice.make0 }, ?_, rfl, rfl,
    rfl, rfl, rfl, rfl, rfl, by decide⟩
  simp only [CacheGetCharts] at habsent ⊢
  rw [habsent]

theorem absent_gives_empty_response_witness :
    ∃ r, (CacheGetCharts (fun _ => none) 42 30).ret = .ok r ∧
      r.Days = 0 ∧
      r.MemberData.isNil = false ∧ r.MemberData.len = 0 ∧ r.MemberData.toList = [] ∧
      r.MessageData.isNil = false ∧ r.MessageData.len = 0 ∧ r.MessageData.toList = [] ∧
      r.WF :=
  absent_gives_empty_response (fun _ => none) 42 30 rfl

/-! ## The privacy gate -/

/-- C6: whenever the settings lookup succeeds with `Public = false` and the
access is public, `HandleStatsCharts` returns nil, writes no status and hands
no key to the chart cache, for every `days` parameter and every cache; the
whole outcome is the same for any two caches. -/
theorem private_stats_hidden_from_public (conf : ServerStatsConfig)
    (cacheGet cacheGet' : GoString → Option ChartResponse) (guildID : Int)
    (daysParam : Option GoString) (hprivate : conf.Public = false) :
    (HandleStatsCharts (.ok conf) cacheGet guildID daysParam true).ret = .ok none ∧
    (HandleStatsCharts (.ok conf) cacheGet guildID daysParam true).cacheKeys = [] ∧
    (HandleStatsCharts (.ok conf) cacheGet guildID daysParam true).status = none ∧
    HandleStatsCharts (.ok conf) cacheGet guildID daysParam true =
      HandleStatsCharts (.ok conf) cacheGet' guildID daysParam true := by
  simp [HandleStatsCharts, hprivate]

theorem private_stats_hidden_from_public_witness :
    (HandleStatsCharts (.ok { Public := false })
      (fun _ => some { Days := 7, MemberData := Slice.ofList [1], MessageData := Slice.ofList [2] })
      42 (some "30".toList) true).ret = .ok none ∧
    (HandleStatsCharts (.ok { Public := false })
      (fun _ => some { Days := 7, MemberData := Slice.ofList [1], MessageData := Slice.ofList [2] })
      42 (some "30".toList) true).cacheKeys = [] ∧
    (HandleStatsCharts (.ok { Public := false })
      (fun _ => some { Days := 7, MemberData := Slice.ofList [1], MessageData := Slice.ofList [2] })
      42 (some "30".toList) true).status = none ∧
    HandleStatsCharts (.ok { Public := false })
      (fun _ => some { Days := 7, MemberData := Slice.ofList [1], MessageData := Slice.ofList [2] })
      42 (some "30".toList) true =
      HandleStatsCharts (.ok { Public := false }) (fun _ => none) 42 (some "30".toList) true :=
  private_stats_hidden_from_public { Public := false }
    (fun _ => some { Days := 7, MemberData := Slice.ofList [1], MessageData := Slice.ofList [2] })
    (fun _ => none) 42 (some "30".toList) rfl

/-! ## The fetcher -/

/-- C8: for every key with at least three ':'-separated parts and every pair
of aggregation retrievals, `cacheChartFetcher` returns nil exactly when the
member retrieval or the message retrieval fails at the parsed
`(guildID, days)`; when both succeed it returns the response made of the
parsed days and the two series; and any response it returns carries the
parsed days and both retrieved series. -/
theorem fetcher_all_or_nothing (RetrieveMemberChartStats : Retrieval MemberChartDataPeriodPtr)
    (RetrieveMessageChartData : Retrieval MessageChartDataPeriodPtr) (key : GoString)
    (hparts : 3 ≤ (Split key ':').length) :
    (cacheChartFetcher RetrieveMemberChartStats RetrieveMessageChartData key = none ↔
      ((∃ e, RetrieveMemberChartStats (ParseInt ((Split key ':').getD 1 [])).1
          (Atoi ((Split key ':').getD 2 [])).1 = .error e) ∨
       (∃ e, RetrieveMessageChartData (ParseInt ((Split key ':').getD 1 [])).1
          (Atoi ((Split key ':').getD 2 [])).1 = .error e))) ∧
    (∀ memberData messageData,
      RetrieveMemberChartStats (ParseInt ((Split key ':').getD 1 [])).1
          (Atoi ((Split key ':').getD 2 [])).1 = .ok memberData →
      RetrieveMessageChartData (ParseInt ((Split key ':').getD 1 [])).1
          (Atoi ((Split key ':').getD 2 [])).1 = .ok messageData →
      cacheChartFetcher RetrieveMemberChartStats RetrieveMessageChartData key =
        some { Days := (Atoi ((Split key ':').getD 2 [])).1,
               MemberData := memberData, MessageData := messageData }) ∧
    (∀ r, cacheChartFetcher RetrieveMemberChartStats RetrieveMessageChartData key = some r →
      r.Days = (Atoi ((Split key ':').getD 2 [])).1 ∧
      RetrieveMemberChartStats (ParseInt ((Split key ':').getD 1 [])).1
          (Atoi ((Split key ':').getD 2 [])).1 = .ok r.MemberData ∧
      RetrieveMessageChartData (ParseInt ((Split key ':').getD 1 [])).1
          (Atoi ((Split key ':').getD 2 [])).1 = .ok r.MessageData) := by
  have hlen : ¬ (Split key ':').length < 3 := by omega
  have hkey : parseChartsKey key =
      some ((ParseInt ((Split key ':').getD 1 [])).1, (Atoi ((Split key ':').getD 2 [])).1) := by
    simp only [parseChartsKey, hlen, if_false]
  unfold cacheChartFetcher
  rw [hkey]
  generalize (ParseInt ((Split key ':').getD 1 [])).1 = guildID
  generalize (Atoi ((Split key ':').getD 2 [])).1 = days
  cases hm : RetrieveMemberChartStats guildID days with
  | error e => simp [hm]
  | ok memberData =>
    cases hg : RetrieveMessageChartData guildID days with
    | error e => simp [hm, hg]
    | ok messageData =>
      simp only [hm, hg, reduceCtorEq, exists_false, or_self, iff_false, not_false_eq_true,
        Except.ok.injEq, Option.some.injEq, true_and]
      refine ⟨?_, ?_⟩
      · intro m g hm' hg'
        subst hm' hg'
        rfl
      · intro r hr
        subst hr
        exact ⟨rfl, rfl, rfl⟩

theorem fetcher_all_or_nothing_witness :
    (cacheChartFetcher (fun _ _ => .ok (Slice.ofList [1, 2])) (fun _ _ => .error [])
        "charts:42:30".toList = none ↔
      ((∃ e, (fun _ _ => .ok (Slice.ofList [1, 2]) : Retrieval MemberChartDataPeriodPtr)
          (ParseInt ((Split "charts:42:30".toList ':').getD 1 [])).1
          (Atoi ((Split "charts:42:30".toList ':').getD 2 [])).1 = .error e) ∨
       (∃ e, (fun _ _ => .error [] : Retrieval MessageChartDataPeriodPtr)
          (ParseInt ((Split "charts:42:30".toList ':').getD 1 [])).1
          (Atoi ((Split "charts:42:30".toList ':').getD 2 [])).1 = .error e))) ∧
    cacheChartFetcher (fun _ _ => .ok (Slice.ofList [1, 2])) (fun _ _ => .ok (Slice.ofList [3, 4]))
        "charts:42:30".toList =
      some { Days := (Atoi ((Split "charts:42:30".toList ':').getD 2 [])).1,
             MemberData := Slice.ofList [1, 2], MessageData := Slice.ofList [3, 4] } :=
  ⟨(fetcher_all_or_nothing (fun _ _ => .ok (Slice.ofList [1, 2])) (fun _ _ => .error [])
      "charts:42:30".toList (by decide)).1,
   (fetcher_all_or_nothing (fun _ _ => .ok (Slice.ofList [1, 2]))
      (fun _ _ => .ok (Slice.ofList [3, 4])) "charts:42:30".toList (by decide)).2.1
      (Slice.ofList [1, 2]) (Slice.ofList [3, 4]) rfl rfl⟩

/-! ## Slicing -/

/-- Whatever the cache holds under the key, `CacheGetCharts` either panics
or returns that cached response unchanged. -/
theorem CacheGetCharts_ret_cached (cacheGet : GoString → Option ChartResponse)
    (guildID days : Int) (stats : ChartResponse)
    (hhit : cacheGet (CacheGetCharts cacheGet guildID days).key = some stats) :
    (CacheGetCharts cacheGet guildID days).ret = .ok stats ∨
    (CacheGetCharts cacheGet guildID days).ret = .error .sliceBoundsOutOfRange := by
  simp only [CacheGetCharts] at hhit ⊢
  rw [hhit]
  cases hcop : slicedCopy stats (resolveDays days).1 (resolveDays days).2 with
  | ok cop => exact Or.inl (by simp only [hcop])
  | error e =>
    cases e
    exact Or.inr (by simp only [hcop])

/-- For a requested day count below 7 (other than -1), a cached member
series of capacity below 7 makes `CacheGetCharts` panic. -/
theorem CacheGetCharts_panics_of_short (cacheGet : GoString → Option ChartResponse)
    (guildID days : Int) (stats : ChartResponse) (h7 : days < 7) (hall : days ≠ -1)
    (hhit : cacheGet (CacheGetCharts cacheGet guildID days).key = some stats)
    (hcap : stats.MemberData.cap < 7) :
    (CacheGetCharts cacheGet guildID days).ret = .error .sliceBoundsOutOfRange := by
  have hres : resolveDays days = (7, days) := by
    unfold resolveDays
    have hgt : ¬ (days ≠ 30 ∧ days ≠ 365 ∧ days > 7) := by omega
    simp only [hgt, h7, if_true, if_false]
  simp only [CacheGetCharts, hres] at hhit ⊢
  rw [hhit]
  have hcond : (7 : Int) ≠ days ∧ days ≠ -1 := ⟨by omega, hall⟩
  have hbound : ¬ ((0 : Int) ≤ 7 ∧ (7 : Int) ≤ (stats.MemberData.cap : Int)) := by omega
  have hcop : slicedCopy stats 7 days = .error .sliceBoundsOutOfRange := by
    unfold slicedCopy
    simp only [if_pos hcond, Slice.sliceTo, if_neg hbound]
    rfl
  simp only [hcop]


/-- C1 (evaluation at a failing input): with `days = 3` and a cached response
for the key `charts:42:3` that has `Days = 3` and eight entries in each series,
the local copy is truncated to the first seven entries with `Days = 7`, and
the value `CacheGetCharts` returns is the cached response itself: `Days = 3`
and eight entries in each series. -/
theorem sliced_copy_not_returned :
    cachedEight.WF ∧
    slicedCopy cachedEight 7 3 =
      .ok { Days := 7
            MemberData := { isNil := false
                            arr := [101, 102, 103, 104, 105, 106, 107, 108], len := 7 }
            MessageData := { isNil := false
                             arr := [201, 202, 203, 204, 205, 206, 207, 208], len := 7 } } ∧
    (CacheGetCharts (cacheWith "charts:42:3".toList cachedEight) 42 3).key = "charts:42:3".toList ∧
    (CacheGetCharts (cacheWith "charts:42:3".toList cachedEight) 42 3).ret = .ok cachedEight ∧
    cachedEight.Days = 3 ∧
    cachedEight.MemberData.toList = [101, 102, 103, 104, 105, 106, 107, 108] ∧
    cachedEight.MessageData.toList = [201, 202, 203, 204, 205, 206, 207, 208] := by
  decide

/-- C4 (evaluation at a failing input): with `days = 3` and a cached response
for the key `charts:42:3` whose series hold three entries (length and
capacity 3), `CacheGetCharts` panics with a slice bound out of range. -/
theorem short_series_panics :
    cachedThree.WF ∧
    (CacheGetCharts (cacheWith "charts:42:3".toList cachedThree) 42 3).key = "charts:42:3".toList ∧
    (CacheGetCharts (cacheWith "charts:42:3".toList cachedThree) 42 3).ret =
      .error .sliceBoundsOutOfRange := by
  decide

/-! ## Ignore-channel serialisation -/

/-- C10 (evaluation at a failing input): when the submitted IDs are `[5, 6]`
and the guild has channel 6 only, the stored `ignore_channels` string is
`",6"`: it starts with a comma. -/
theorem leading_comma_when_first_id_dropped :
    (HandleSaveStatsSettings { ID := 42, Channels := [{ ID := 6 }] }
      { Public := true, IgnoreChannels := [5, 6] }).IgnoreChannels = ",6".toList := by
  decide

/-! ## The cache key -/

/-- C9: for every guild ID `g` and bucket `d` in the `int64` range, the key
`"charts:" + g + ":" + d` splits on ':' into three parts, `cacheChartFetcher`
parses it back to `(g, d)` and calls both retrievals at `(g, d)`, and keys of
distinct pairs differ; in particular this holds for the key that
`CacheGetCharts` builds for any requested day count. -/
theorem cache_key_round_trip (g d : Int)
    (hg : -(2 ^ 63) ≤ g ∧ g < 2 ^ 63) (hd : -(2 ^ 63) ≤ d ∧ d < 2 ^ 63) :
    (Split (chartsKey g d) ':').length = 3 ∧
    parseChartsKey (chartsKey g d) = some (g, d) ∧
    (∀ (RetrieveMemberChartStats : Retrieval MemberChartDataPeriodPtr)
       (RetrieveMessageChartData : Retrieval MessageChartDataPeriodPtr),
      cacheChartFetcher RetrieveMemberChartStats RetrieveMessageChartData (chartsKey g d) =
        match RetrieveMemberChartStats g d with
        | .error _ => none
        | .ok memberData =>
          match RetrieveMessageChartData g d with
          | .error _ => none
          | .ok messageData =>
            some { Days := d, MemberData := memberData, MessageData := messageData }) ∧
    (∀ g' d' : Int, -(2 ^ 63) ≤ g' ∧ g' < 2 ^ 63 → -(2 ^ 63) ≤ d' ∧ d' < 2 ^ 63 →
      chartsKey g' d' = chartsKey g d → g' = g ∧ d' = d) ∧
    (∀ (cacheGet : GoString → Option ChartResponse),
      (CacheGetCharts cacheGet g d).key = chartsKey g (resolveDays d).2 ∧
      parseChartsKey (CacheGetCharts cacheGet g d).key = some (g, (resolveDays d).2)) := by
  have hparse : ∀ a b : Int, -(2 ^ 63) ≤ a ∧ a < 2 ^ 63 → -(2 ^ 63) ≤ b ∧ b < 2 ^ 63 →
      parseChartsKey (chartsKey a b) = some (a, b) := by
    intro a b ha hb
    rw [parseChartsKey_chartsKey, clampInt64_of_range a ha.1 ha.2,
      clampInt64_of_range b hb.1 hb.2]
  refine ⟨?_, hparse g d hg hd, ?_, ?_, ?_⟩
  · rw [Split_chartsKey]
    rfl
  · intro rm rg
    unfold cacheChartFetcher
    rw [hparse g d hg hd]
  · intro g' d' hg' hd' hkey
    have h1 := hparse g' d' hg' hd'
    rw [hkey, hparse g d hg hd] at h1
    simp only [Option.some.injEq, Prod.mk.injEq] at h1
    exact ⟨h1.1.symm, h1.2.symm⟩
  · intro cacheGet
    have hr := resolveDays_snd_range d hd.1 hd.2
    have hk : (CacheGetCharts cacheGet g d).key = chartsKey g (resolveDays d).2 := rfl
    exact ⟨hk, by rw [hk]; exact hparse g _ hg hr⟩

theorem cache_key_round_trip_witness :
    (Split (chartsKey (-42) (-1)) ':').length = 3 ∧
    parseChartsKey (chartsKey (-42) (-1)) = some (-42, -1) :=
  ⟨(cache_key_round_trip (-42) (-1) (by decide) (by decide)).1,
   (cache_key_round_trip (-42) (-1) (by decide) (by decide)).2.1⟩

/-! ## Request clamping -/

/-- C5 (counterexample): the parameters `days=0`, `days=-5`, `days=abc` and
`days=-1` give the day counts 0, -5, 0 and -1, none of which lies in
`[1, 365]`, and the
handler passes them on: for `days=0` the key handed to the cache is
`charts:42:0`. -/
theorem small_days_not_clamped :
    numDaysOfQuery (some "0".toList) = 0 ∧
    numDaysOfQuery (some "-5".toList) = -5 ∧
    numDaysOfQuery (some "abc".toList) = 0 ∧
    numDaysOfQuery (some "-1".toList) = -1 ∧
    ¬ (1 ≤ numDaysOfQuery (some "0".toList) ∧ numDaysOfQuery (some "0".toList) ≤ 365) ∧
    (HandleStatsCharts (.ok { Public := true }) (fun _ => none) 42 (some "0".toList) false).cacheKeys =
      ["charts:42:0".toList] := by
  decide

/-- C5 (amended): for every value of the `days` parameter the day count
handed to `CacheGetCharts` is at most 365 (there is no lower clamp). It is 7
when the parameter is absent or empty. For every decimal integer (an
optional sign followed by digits only) denoting `v` it is 365 when
`v > 365`, `-2^63` when `v < -2^63`, and `v` itself otherwise (zero and
negative values included); the decimal form of every integer `n` is such a
value denoting `n`. For every other non-empty value it is 0, unless the
digits after the optional sign, up to the first non-digit, exceed the
`uint64` range: then it is 365, or `-2^63` after a minus sign. When the
privacy gate lets the request through, that day count is the one
`CacheGetCharts` is called with. -/
theorem request_days_capped_at_365 (daysParam : Option GoString) :
    numDaysOfQuery daysParam ≤ 365 ∧
    numDaysOfQuery none = 7 ∧
    numDaysOfQuery (some []) = 7 ∧
    (∀ s : GoString, isDecimalInteger s = true →
      numDaysOfQuery (some s) =
        if decimalIntegerValue s > 365 then 365
        else if decimalIntegerValue s < -(2 ^ 63) then -(2 ^ 63)
        else decimalIntegerValue s) ∧
    (∀ s : GoString, s ≠ [] → isDecimalInteger s = false →
      numDaysOfQuery (some s) =
        if decimalValue (leadingDigits s) 0 < 2 ^ 64 then 0
        else if s.head? = some '-' then -(2 ^ 63)
        else 365) ∧
    (∀ n : Int, isDecimalInteger (FormatInt n) = true ∧ decimalIntegerValue (FormatInt n) = n) ∧
    (∀ n : Int, 365 < n → numDaysOfQuery (some (FormatInt n)) = 365) ∧
    (∀ n : Int, -(2 ^ 63) ≤ n → n ≤ 365 → numDaysOfQuery (some (FormatInt n)) = n) ∧
    (∀ (conf : ServerStatsConfig) (cacheGet : GoString → Option ChartResponse) (guildID : Int)
        (isPublicAccess : Bool), (!conf.Public && isPublicAccess) = false →
      (HandleStatsCharts (.ok conf) cacheGet guildID daysParam isPublicAccess).cacheKeys =
        [(CacheGetCharts cacheGet guildID (numDaysOfQuery daysParam)).key] ∧
      (HandleStatsCharts (.ok conf) cacheGet guildID daysParam isPublicAccess).ret =
        (CacheGetCharts cacheGet guildID (numDaysOfQuery daysParam)).ret.map some) := by
  refine ⟨?_, rfl, rfl, numDaysOfQuery_decimalInteger, numDaysOfQuery_not_integer,
    FormatInt_decimalInteger, ?_, ?_, ?_⟩
  · unfold numDaysOfQuery
    split
    · simp only
      split <;> omega
    · norm_num
  · intro n hn
    have hint := FormatInt_decimalInteger n
    rw [numDaysOfQuery_decimalInteger _ hint.1, hint.2, if_pos hn]
  · intro n hlo hhi
    have hint := FormatInt_decimalInteger n
    rw [numDaysOfQuery_decimalInteger _ hint.1, hint.2, if_neg (by omega), if_neg (by omega)]
  · intro conf cacheGet guildID isPublicAccess hgate
    simp only [HandleStatsCharts, hgate, Bool.false_eq_true, if_false, and_self]

theorem request_days_capped_at_365_witness :
    numDaysOfQuery (some "1000".toList) ≤ 365 ∧
    numDaysOfQuery (some "1000".toList) = 365 ∧
    numDaysOfQuery (some "+0001000".toList) = 365 ∧
    numDaysOfQuery (some "-007".toList) = -7 ∧
    numDaysOfQuery (some "-99999999999999999999".toList) = -(2 ^ 63) ∧
    numDaysOfQuery (some "12x".toList) = 0 ∧
    numDaysOfQuery (some "99999999999999999999x".toList) = 365 ∧
    numDaysOfQuery (some "-99999999999999999999x".toList) = -(2 ^ 63) ∧
    numDaysOfQuery (some (FormatInt (-5))) = -5 :=
  ⟨(request_days_capped_at_365 (some "1000".toList)).1,
   ((request_days_capped_at_365 none).2.2.2.1 "1000".toList (by decide)).trans (by decide),
   ((request_days_capped_at_365 none).2.2.2.1 "+0001000".toList (by decide)).trans (by decide),
   ((request_days_capped_at_365 none).2.2.2.1 "-007".toList (by decide)).trans (by decide),
   ((request_days_capped_at_365 none).2.2.2.1 "-99999999999999999999".toList
      (by decide)).trans (by decide),
   ((request_days_capped_at_365 none).2.2.2.2.1 "12x".toList (by decide)
      (by decide)).trans (by decide),
   ((request_days_capped_at_365 none).2.2.2.2.1 "99999999999999999999x".toList (by decide)
      (by decide)).trans (by decide),
   ((request_days_capped_at_365 none).2.2.2.2.1 "-99999999999999999999x".toList (by decide)
      (by decide)).trans (by decide),
   (request_days_capped_at_365 none).2.2.2.2.2.2.2.1 (-5) (by decide) (by decide)⟩

end Serverstats
